import Mathlib

/-
Verification of the tmx2map placement/transform/merge pipeline
(src/tmx2map/tmx2map.py) against its natural-language specification.

The script converts a 2D tile grid into 3D solid geometry by stamping cached
prefabs onto cells and placing point objects.  The shallow embedding below
translates the pipeline of tmx2map.py into pure Lean definitions:

  * geometry scalars are exact real numbers (the script uses Python floats;
    the arithmetic is modelled exactly),
  * numeric property values authored in source files are modelled as exact
    rationals (`PropVal.num`); angle values re-derived by the pipeline are
    real numbers (`PropVal.real`),
  * Python dict / attribute state becomes association lists and records,
  * mutation becomes explicit state passing (`MapState`),
  * uncaught Python exceptions (KeyError / IndexError / AttributeError)
    become `Except CrashErr`.

The helper module `mathhelper` (flip matrices, vector_from_angle,
angle_between) is not part of the repository sources available here; those
definitions are modelled from the specification and are marked as such.
-/

namespace Tmx2Map

noncomputable section

/-- Point in 3D space, as produced by parsing or transforming geometry. -/
structure Vec3 where
  x : ℝ
  y : ℝ
  z : ℝ

/-- Affine 4x4 matrix, written with explicit entries (row i, column j),
mirroring the numpy 4x4 matrices of tmx2map.py. -/
structure Mat4 where
  m00 : ℝ
  m01 : ℝ
  m02 : ℝ
  m03 : ℝ
  m10 : ℝ
  m11 : ℝ
  m12 : ℝ
  m13 : ℝ
  m20 : ℝ
  m21 : ℝ
  m22 : ℝ
  m23 : ℝ
  m30 : ℝ
  m31 : ℝ
  m32 : ℝ
  m33 : ℝ

/-- Identity matrix, as produced by numpy.identity(4). -/
def identityMat4 : Mat4 :=
  ⟨1, 0, 0, 0,
   0, 1, 0, 0,
   0, 0, 1, 0,
   0, 0, 0, 1⟩

/-- Matrix product, as computed by numpy.dot on two 4x4 matrices. -/
def Mat4.mul (a b : Mat4) : Mat4 :=
  ⟨a.m00 * b.m00 + a.m01 * b.m10 + a.m02 * b.m20 + a.m03 * b.m30,
   a.m00 * b.m01 + a.m01 * b.m11 + a.m02 * b.m21 + a.m03 * b.m31,
   a.m00 * b.m02 + a.m01 * b.m12 + a.m02 * b.m22 + a.m03 * b.m32,
   a.m00 * b.m03 + a.m01 * b.m13 + a.m02 * b.m23 + a.m03 * b.m33,
   a.m10 * b.m00 + a.m11 * b.m10 + a.m12 * b.m20 + a.m13 * b.m30,
   a.m10 * b.m01 + a.m11 * b.m11 + a.m12 * b.m21 + a.m13 * b.m31,
   a.m10 * b.m02 + a.m11 * b.m12 + a.m12 * b.m22 + a.m13 * b.m32,
   a.m10 * b.m03 + a.m11 * b.m13 + a.m12 * b.m23 + a.m13 * b.m33,
   a.m20 * b.m00 + a.m21 * b.m10 + a.m22 * b.m20 + a.m23 * b.m30,
   a.m20 * b.m01 + a.m21 * b.m11 + a.m22 * b.m21 + a.m23 * b.m31,
   a.m20 * b.m02 + a.m21 * b.m12 + a.m22 * b.m22 + a.m23 * b.m32,
   a.m20 * b.m03 + a.m21 * b.m13 + a.m22 * b.m23 + a.m23 * b.m33,
   a.m30 * b.m00 + a.m31 * b.m10 + a.m32 * b.m20 + a.m33 * b.m30,
   a.m30 * b.m01 + a.m31 * b.m11 + a.m32 * b.m21 + a.m33 * b.m31,
   a.m30 * b.m02 + a.m31 * b.m12 + a.m32 * b.m22 + a.m33 * b.m32,
   a.m30 * b.m03 + a.m31 * b.m13 + a.m32 * b.m23 + a.m33 * b.m33⟩

/-- Application of the matrix to a 3D point with homogeneous coordinate 1,
as in `tuple(numpy.dot(mat, (*point, 1))[:3])` in tmx2map.py. -/
def Mat4.applyPoint (m : Mat4) (p : Vec3) : Vec3 :=
  ⟨m.m00 * p.x + m.m01 * p.y + m.m02 * p.z + m.m03,
   m.m10 * p.x + m.m11 * p.y + m.m12 * p.z + m.m13,
   m.m20 * p.x + m.m21 * p.y + m.m22 * p.z + m.m23⟩

/-- Modelled from the spec: mathhelper.Matrices.horizontal_flip.  The
horizontal mirror reflects the x axis about the tile's local center. -/
def horizontal_flip : Mat4 :=
  ⟨-1, 0, 0, 0,
   0, 1, 0, 0,
   0, 0, 1, 0,
   0, 0, 0, 1⟩

/-- Modelled from the spec: mathhelper.Matrices.vertical_flip.  The vertical
mirror reflects the y axis about the tile's local center. -/
def vertical_flip : Mat4 :=
  ⟨1, 0, 0, 0,
   0, -1, 0, 0,
   0, 0, 1, 0,
   0, 0, 0, 1⟩

/-- Modelled from the spec: mathhelper.Matrices.diagonal_flip.  The diagonal
mirror reflects the pair of axes x and y (swapping them) about the tile's
local center. -/
def diagonal_flip : Mat4 :=
  ⟨0, 1, 0, 0,
   1, 0, 0, 0,
   0, 0, 1, 0,
   0, 0, 0, 1⟩

/-- Modelled from the spec: mathhelper.vector_from_angle converts a bearing
angle in degrees into a unit direction vector in the x-y plane. -/
noncomputable def vector_from_angle (deg : ℝ) : Vec3 :=
  ⟨Real.cos (deg * Real.pi / 180), Real.sin (deg * Real.pi / 180), 0⟩

/-- Modelled from the spec: mathhelper.angle_between converts a direction
vector back into a bearing angle in degrees (the angle of its x-y projection
against the positive x axis). -/
noncomputable def angle_between (v : Vec3) : ℝ :=
  Complex.arg (v.x + v.y * Complex.I) * 180 / Real.pi

/-- Tilemap-level configuration read from the 2D tilemap and the mapping
file: grid width/height in cells, 3D tile size, and 2D tile size
(tilemap.tilewidth). -/
structure Config where
  width : ℕ
  height : ℕ
  tile_size_3d : ℝ
  tile_size_2d : ℝ

/-- The 3D width of the map: tilemap.width * tile_size_3d. -/
def tilemap_width_3d (cfg : Config) : ℝ :=
  (cfg.width : ℝ) * cfg.tile_size_3d

/-- The 3D height of the map: tilemap.height * tile_size_3d. -/
def tilemap_height_3d (cfg : Config) : ℝ :=
  (cfg.height : ℝ) * cfg.tile_size_3d

/-- The cell column derived by tmx2map.py line 224: `x = index % width`. -/
def cell_x (cfg : Config) (index : ℕ) : ℕ :=
  index % cfg.width

/-- The bottom-up row value derived by tmx2map.py line 225:
`y = tilemap.height - (index // height)`.  Note the division by the grid
height, not the width. -/
def cell_y (cfg : Config) (index : ℕ) : ℝ :=
  (cfg.height : ℝ) - ((index / cfg.height : ℕ) : ℝ)

/-- The x component of the cell's center offset (tmx2map.py line 227). -/
def tilemap_offset_x (cfg : Config) (index : ℕ) : ℝ :=
  (cell_x cfg index : ℝ) * cfg.tile_size_3d + cfg.tile_size_3d / 2 -
    tilemap_width_3d cfg / 2

/-- The y component of the cell's center offset (tmx2map.py line 228). -/
def tilemap_offset_y (cfg : Config) (index : ℕ) : ℝ :=
  cell_y cfg index * cfg.tile_size_3d - cfg.tile_size_3d / 2 -
    tilemap_height_3d cfg / 2

/-- Translation matrix: identity with the translation column set, as built by
`mat = numpy.identity(4); mat[:3, 3] = x, y, 0` (tmx2map.py lines 231-232). -/
def translationMat (x y z : ℝ) : Mat4 :=
  ⟨1, 0, 0, x,
   0, 1, 0, y,
   0, 0, 1, z,
   0, 0, 0, 1⟩

/-- The mirror composite built by tmx2map.py lines 234-248: starting from the
identity, right-multiply by the horizontal, vertical and diagonal flip
matrices, in that fixed order, for each active flag. -/
def flipMatrix (h v d : Bool) : Mat4 :=
  let f := identityMat4
  let f := if h then f.mul horizontal_flip else f
  let f := if v then f.mul vertical_flip else f
  let f := if d then f.mul diagonal_flip else f
  f

/-- The winding-flip flag built by tmx2map.py lines 236-248: starting from
False, toggled once for each active mirror flag. -/
def flipFace (h v d : Bool) : Bool :=
  let f := false
  let f := if h then !f else f
  let f := if v then !f else f
  let f := if d then !f else f
  f

/-- The full placement transform of tmx2map.py line 250:
`mat = numpy.dot(mat, flip_matrix)` where mat is the translation built from
the cell's center offset. -/
def tileTransform (cfg : Config) (index : ℕ) (h v d : Bool) : Mat4 :=
  (translationMat (tilemap_offset_x cfg index) (tilemap_offset_y cfg index) 0).mul
    (flipMatrix h v d)

/-- Column as the specification describes it: index mod width. -/
def cell_x_spec (cfg : Config) (index : ℕ) : ℕ :=
  index % cfg.width

/-- Bottom-up row value as the specification describes it: the top-down row
is index div width, then converted to a bottom-up index. -/
def cell_y_spec (cfg : Config) (index : ℕ) : ℝ :=
  (cfg.height : ℝ) - ((index / cfg.width : ℕ) : ℝ)

/-- The y offset as the specification describes it, using the width-derived
row. -/
def tilemap_offset_y_spec (cfg : Config) (index : ℕ) : ℝ :=
  cell_y_spec cfg index * cfg.tile_size_3d - cfg.tile_size_3d / 2 -
    tilemap_height_3d cfg / 2

/-- Value of a dynamic entity property (a Python attribute value).  Source
files provide strings and parsed numbers; the pipeline stores re-derived
angles as real numbers, parsed origins as vectors, and mangle values as
triples of reals. -/
inductive PropVal where
  | str (s : String)
  | num (q : ℚ)
  | vec (v : Vec3)
  | real (r : ℝ)
  | rtriple (a b c : ℝ)

/-- One bounding face of a brush (quake.map Plane): texture name, texture
alignment metadata, and the ordered list of boundary points. -/
structure Plane where
  texture_name : String
  offset : ℝ × ℝ
  rotation : ℝ
  scale : ℝ × ℝ
  points : List Vec3

/-- A convex solid as an ordered list of planes (quake.map Brush). -/
structure Brush where
  planes : List Plane

/-- An entity (quake.map Entity): the classname and brushes attributes are
explicit; all other Python attributes ("wad", "origin", "angle", "mangle",
spawnflags, ...) live in the `props` association list. -/
structure Entity where
  classname : String
  props : List (String × PropVal)
  brushes : List Brush

/-- First value bound to a key in an association list (Python attribute
read; attribute sets keep keys unique, so first = only). -/
def lookupProp : List (String × PropVal) → String → Option PropVal
  | [], _ => none
  | (k, v) :: rest, key => if k = key then some v else lookupProp rest key

/-- Python setattr on the association list: replace the first binding of the
key in place, or append a new binding at the end. -/
def storeProp : List (String × PropVal) → String → PropVal → List (String × PropVal)
  | [], key, val => [(key, val)]
  | (k, v) :: rest, key, val =>
      if k = key then (k, val) :: rest else (k, v) :: storeProp rest key val

/-- Attribute read on an entity. -/
def Entity.getProp (e : Entity) (key : String) : Option PropVal :=
  lookupProp e.props key

/-- Attribute write on an entity. -/
def Entity.setProp (e : Entity) (key : String) (val : PropVal) : Entity :=
  { e with props := storeProp e.props key val }

/-- The property-copy loop of tmx2map.py lines 262-265: every attribute of
the template entity except "brushes" is set on the destination entity
(classname included; attributes only the destination has are retained). -/
def copyProperties (t e : Entity) : Entity :=
  { classname := t.classname
    props := t.props.foldl (fun ps kv => storeProp ps kv.1 kv.2) e.props
    brushes := e.brushes }

/-- A prefab: the entity list parsed from one 3D tile map file. -/
def Prefab := List Entity

/-- The 3D tile cache keyed by gid (the `tiles` dict of tmx2map.py). -/
def TileCache := List (ℕ × Prefab)

/-- Dict lookup tiles.get(gid). -/
def lookupTile : TileCache → ℕ → Option Prefab
  | [], _ => none
  | (g, p) :: rest, gid => if g = gid then some p else lookupTile rest gid

/-- Python truthiness of `not tiles.get(tile.gid)` (tmx2map.py line 217):
true when the gid is absent from the dict or mapped to an empty entity
list. -/
def prefabFalsy (o : Option Prefab) : Bool :=
  match o with
  | none => true
  | some [] => true
  | some (_ :: _) => false

/-- The plane transform of tmx2map.py lines 297-311: copy texture alignment
metadata verbatim, transform every boundary point through the placement
matrix, and reverse the point sequence when flip_face is set. -/
def transformPlane (mat : Mat4) (flip_face : Bool) (p : Plane) : Plane :=
  let pts := p.points.map mat.applyPoint
  { texture_name := p.texture_name
    offset := p.offset
    rotation := p.rotation
    scale := p.scale
    points := if flip_face then pts.reverse else pts }

/-- The brush transform of tmx2map.py lines 292-313. -/
def transformBrush (mat : Mat4) (flip_face : Bool) (b : Brush) : Brush :=
  ⟨b.planes.map (transformPlane mat flip_face)⟩

/-- The origin transform of tmx2map.py lines 268-272: an "origin" attribute
is parsed, transformed through the full placement matrix with homogeneous
coordinate 1, and stored back. -/
def transformOrigin (mat : Mat4) (e : Entity) : Entity :=
  match e.getProp "origin" with
  | some (.vec o) => e.setProp "origin" (.vec (mat.applyPoint o))
  | _ => e

/-- The angle default of tmx2map.py lines 275-276: an entity without an
"angle" attribute gets angle 0. -/
def defaultAngle (e : Entity) : Entity :=
  if (e.getProp "angle").isNone then e.setProp "angle" (.num 0) else e

/-- The direction re-derivation of tmx2map.py lines 278-289: a "mangle"
attribute has its bearing component converted to a direction vector, rotated
by the flip matrix with homogeneous coordinate 1, and converted back,
keeping the first and third components; otherwise an "angle" attribute that
is at least 0 gets the same treatment, and a negative angle is left
untouched. -/
def rederiveDirections (flip : Mat4) (e : Entity) : Entity :=
  match e.getProp "mangle" with
  | some (.rtriple p b r) =>
      e.setProp "mangle"
        (.rtriple p (angle_between (flip.applyPoint (vector_from_angle b))) r)
  | _ =>
      match e.getProp "angle" with
      | some (.num a) =>
          if 0 ≤ a then
            e.setProp "angle"
              (.real (angle_between (flip.applyPoint (vector_from_angle (a : ℝ)))))
          else e
      | _ => e

/-- The origin/angle/mangle re-derivation of tmx2map.py lines 267-289,
applied after the property copy and guarded by the entity not being the
worldspawn accumulator. -/
def adjustEntity (mat flip : Mat4) (e : Entity) : Entity :=
  if e.classname = "worldspawn" then e
  else rederiveDirections flip (defaultAngle (transformOrigin mat e))

/-- A fresh non-world entity as created by tmx2map.py lines 258-260
(classname "func_unknown", empty brush list). -/
def freshEntity : Entity :=
  { classname := "func_unknown", props := [], brushes := [] }

/-- The new entity built for one non-world template entity of a placement
(tmx2map.py lines 258-314): fresh entity, property copy, origin/angle
re-derivation, then the transformed brushes. -/
def instantiateDetail (mat flip : Mat4) (flip_face : Bool) (t : Entity) : Entity :=
  let e := copyProperties t freshEntity
  let e := adjustEntity mat flip e
  { e with brushes := e.brushes ++ t.brushes.map (transformBrush mat flip_face) }

/-- Pipeline state threaded through the pass: the tile cache, the
accumulator entity (worldspawn), the entities appended after it, the
missing-gid dedup list, the warnings emitted so far (by gid), and the two
counters. -/
structure MapState where
  tiles : TileCache
  worldspawn : Entity
  entities : List Entity
  missing_gids : List ℕ
  warnings : List ℕ
  tiles_processed : ℕ
  brush_count : ℕ

/-- Processing of one template entity of a placed prefab (tmx2map.py lines
253-317).  A template whose classname is "worldspawn" is routed onto the
accumulator: properties are copied onto it and its transformed brushes are
appended to the accumulator's brush list.  Any other template becomes a new
entity appended to the output list. -/
def placeTemplateEntity (mat flip : Mat4) (flip_face : Bool) (st : MapState)
    (t : Entity) : MapState :=
  if t.classname = "worldspawn" then
    let e := copyProperties t st.worldspawn
    let e := adjustEntity mat flip e
    let e := { e with brushes := e.brushes ++ t.brushes.map (transformBrush mat flip_face) }
    { st with worldspawn := e, brush_count := st.brush_count + t.brushes.length }
  else
    { st with entities := st.entities ++ [instantiateDetail mat flip flip_face t]
              brush_count := st.brush_count + t.brushes.length }

/-- Placement of a whole prefab at one cell: the template entities are
processed in order (tmx2map.py line 253). -/
def placePrefab (mat flip : Mat4) (flip_face : Bool) (st : MapState)
    (prefab : Prefab) : MapState :=
  prefab.foldl (placeTemplateEntity mat flip flip_face) st

/-- One cell of a tile layer: the gid and the three mirror flags. -/
structure Cell where
  gid : ℕ
  hflip : Bool
  vflip : Bool
  dflip : Bool

/-- Uncaught Python exceptions of the pipeline. -/
inductive CrashErr where
  | keyError (gid : ℕ)
  | gid2KeyError
  | gid2IndexError
  | gid2AttrError
deriving DecidableEq

/-- Processing of one enumerated cell of a tile layer (tmx2map.py lines
210-317).  Gid 0 is skipped silently.  A falsy cache entry for a gid not yet
in missing_gids emits one warning, records the gid, and skips the cell.  Any
other cell is counted as processed, its transform is built, and
`tiles[tile.gid]` is read: a missing key at this point raises KeyError
(modelled as Except.error), otherwise the prefab is placed. -/
def processCell (cfg : Config) (st : MapState) (ic : ℕ × Cell) :
    Except CrashErr MapState :=
  let index := ic.1
  let tile := ic.2
  if tile.gid = 0 then .ok st
  else if prefabFalsy (lookupTile st.tiles tile.gid) ∧ tile.gid ∉ st.missing_gids then
    .ok { st with warnings := st.warnings ++ [tile.gid]
                  missing_gids := st.missing_gids ++ [tile.gid] }
  else
    let st := { st with tiles_processed := st.tiles_processed + 1 }
    let mat := tileTransform cfg index tile.hflip tile.vflip tile.dflip
    let flip := flipMatrix tile.hflip tile.vflip tile.dflip
    let flip_face := flipFace tile.hflip tile.vflip tile.dflip
    match lookupTile st.tiles tile.gid with
    | none => .error (.keyError tile.gid)
    | some prefab => .ok (placePrefab mat flip flip_face st prefab)

/-- Processing of the enumerated cells of a tile layer in row-major index
order; a raised exception aborts the pass. -/
def processCells (cfg : Config) : MapState → List (ℕ × Cell) →
    Except CrashErr MapState
  | st, [] => .ok st
  | st, ic :: rest =>
      match processCell cfg st ic with
      | .error err => .error err
      | .ok st2 => processCells cfg st2 rest

/-- A free-form object of an object layer: position, name, and property
list in source order. -/
structure TmxObject where
  x : ℝ
  y : ℝ
  name : String
  properties : List (String × PropVal)

/-- The real value of a property used as the vertical coordinate Z; numeric
values are modelled by their real value (non-numeric values keep the
previous vertical coordinate; the format supplies numbers here). -/
def zValue (v : PropVal) (z : ℝ) : ℝ :=
  match v with
  | .num q => (q : ℝ)
  | .real r => r
  | _ => z

/-- The object placer of tmx2map.py lines 320-338: scan the properties
keeping the value of the property literally named "Z" aside (default 0) and
setting every other property on a fresh entity; then compute the scaled,
Y-inverted origin, store it, and set the classname to the object's name. -/
def placeObject (cfg : Config) (obj : TmxObject) : Entity :=
  let init : Entity := { classname := "", props := [], brushes := [] }
  let scanned := obj.properties.foldl
    (fun (acc : ℝ × Entity) kv =>
      if kv.1 = "Z" then (zValue kv.2 acc.1, acc.2)
      else (acc.1, acc.2.setProp kv.1 kv.2))
    (0, init)
  let scale := cfg.tile_size_3d / cfg.tile_size_2d
  let ex := obj.x * scale - tilemap_width_3d cfg / 2
  let ey := (cfg.height : ℝ) * cfg.tile_size_3d - obj.y * scale -
    tilemap_height_3d cfg / 2
  let e := scanned.2.setProp "origin" (.vec ⟨ex, ey, scanned.1⟩)
  { e with classname := obj.name }

/-- A layer of the tilemap, in source order: either a tile layer (the flat
row-major cell list) or an object group. -/
inductive Layer where
  | tileLayer (cells : List Cell)
  | objectGroup (objs : List TmxObject)

/-- Processing of one layer (tmx2map.py lines 207-338): the cells of a tile
layer are enumerated in row-major index order; the objects of an object
group are placed and appended in source order. -/
def processLayer (cfg : Config) (st : MapState) : Layer → Except CrashErr MapState
  | .tileLayer cells => processCells cfg st cells.enum
  | .objectGroup objs =>
      .ok { st with entities := st.entities ++ objs.map (placeObject cfg) }

/-- Processing of the layers in their source order. -/
def processLayers (cfg : Config) : MapState → List Layer → Except CrashErr MapState
  | st, [] => .ok st
  | st, l :: rest =>
      match processLayer cfg st l with
      | .error err => .error err
      | .ok st2 => processLayers cfg st2 rest

/-- The accumulator seeding of tmx2map.py lines 195-198: a fresh worldspawn
entity whose classname is "worldspawn" and whose "wad" attribute is read
from `tiles[2][0].wad` — the first entity of the prefab cached under the
hardcoded gid 2.  A missing cache entry raises KeyError; an empty prefab
raises IndexError; a first entity without a "wad" attribute raises
AttributeError. -/
def seedWorldspawn (tiles : TileCache) : Except CrashErr Entity :=
  match lookupTile tiles 2 with
  | none => .error .gid2KeyError
  | some [] => .error .gid2IndexError
  | some (e0 :: _) =>
      match e0.getProp "wad" with
      | none => .error .gid2AttrError
      | some w =>
          .ok { classname := "worldspawn", props := [("wad", w)], brushes := [] }

/-- The initial pipeline state (tmx2map.py lines 193-205): seeded
accumulator, empty output tail, no warnings, zero counters. -/
def initState (tiles : TileCache) : Except CrashErr MapState :=
  match seedWorldspawn tiles with
  | .error err => .error err
  | .ok ws =>
      .ok { tiles := tiles, worldspawn := ws, entities := [], missing_gids := []
            warnings := [], tiles_processed := 0, brush_count := 0 }

/-- The whole placement pass: seed the accumulator, then process every layer
in source order. -/
def runPipeline (cfg : Config) (tiles : TileCache) (layers : List Layer) :
    Except CrashErr MapState :=
  match initState tiles with
  | .error err => .error err
  | .ok st => processLayers cfg st layers

/-- The output entity list: the accumulator entity (held at index 0 of the
`entities` list of tmx2map.py and mutated in place) followed by the appended
entities. -/
def finalEntities (st : MapState) : List Entity :=
  st.worldspawn :: st.entities

/-- A sequence of prefab placements, one per occupied cell, each with its
placement matrix, flip matrix and flip flag, applied in cell order. -/
def placeSeq (st : MapState) (ps : List (Mat4 × Mat4 × Bool × Prefab)) : MapState :=
  ps.foldl (fun s q => placePrefab q.1 q.2.1 q.2.2.1 s q.2.2.2) st

/-- The transformed brushes contributed to the accumulator by the world
template entities of one placed prefab, in template order. -/
def worldBrushesOf (mat : Mat4) (flip_face : Bool) (prefab : Prefab) : List Brush :=
  ((prefab.filter (fun t => t.classname == "worldspawn")).map
    (fun t => t.brushes.map (transformBrush mat flip_face))).flatten

/-- The new entities contributed to the output list by the non-world
template entities of one placed prefab, in template order. -/
def detailEntitiesOf (mat flip : Mat4) (flip_face : Bool) (prefab : Prefab) : List Entity :=
  (prefab.filter (fun t => !(t.classname == "worldspawn"))).map
    (instantiateDetail mat flip flip_face)

/-- The entities one enumerated cell contributes to the output list on a
run that completes: nothing for gid 0 or a gid absent from the cache
(the warn-and-skip path), and the instantiated non-world template entities
of the resolved prefab otherwise, under the cell's transform.  A gid cached
as an empty prefab contributes nothing on either path it can take. -/
def cellEntities (cfg : Config) (tiles : TileCache) (ic : ℕ × Cell) : List Entity :=
  if ic.2.gid = 0 then []
  else
    match lookupTile tiles ic.2.gid with
    | none => []
    | some prefab =>
        detailEntitiesOf (tileTransform cfg ic.1 ic.2.hflip ic.2.vflip ic.2.dflip)
          (flipMatrix ic.2.hflip ic.2.vflip ic.2.dflip)
          (flipFace ic.2.hflip ic.2.vflip ic.2.dflip) prefab

/-- The entities one layer contributes to the output list on a run that
completes: cell contributions in row-major (enumeration) order for a tile
layer, placed objects in source order for an object group. -/
def layerEntities (cfg : Config) (tiles : TileCache) : Layer → List Entity
  | .tileLayer cells => (cells.enum.map (cellEntities cfg tiles)).flatten
  | .objectGroup objs => objs.map (placeObject cfg)

/-- The value bound to the property literally named "Z" by the object
placer's scan (later occurrences overwrite earlier ones; absence defaults
to 0). -/
def zOf (props : List (String × PropVal)) : ℝ :=
  props.foldl (fun z kv => if kv.1 = "Z" then zValue kv.2 z else z) 0

/-- The entity accumulated by the object placer's property scan: every
property except "Z" is set on a fresh entity, in source order. -/
def scanZEntity (props : List (String × PropVal)) : Entity :=
  props.foldl (fun e kv => if kv.1 = "Z" then e else e.setProp kv.1 kv.2)
    { classname := "", props := [], brushes := [] }

/-- A 4x4 square test configuration: 2D tile size 32, 3D tile size 64, so
the 3D map extents are 256 by 256. -/
def cfgSquare : Config :=
  { width := 4, height := 4, tile_size_3d := 64, tile_size_2d := 32 }

/-- A 2 by 4 non-square test configuration with 3D tile size 64. -/
def cfgC2 : Config :=
  { width := 2, height := 4, tile_size_3d := 64, tile_size_2d := 32 }

/-- Test prefab cached under gid 2: one world entity carrying the texture
archive reference used to seed the accumulator. -/
def prefabGid2 : Prefab :=
  [{ classname := "worldspawn", props := [("wad", .str "quake.wad")], brushes := [] }]

/-- Test cache holding only the gid 2 prefab. -/
def tilesC1 : TileCache :=
  [(2, prefabGid2)]

/-- A cell referencing gid 5, which has no prefab in tilesC1. -/
def cellMissing : Cell :=
  { gid := 5, hflip := false, vflip := false, dflip := false }

/-- The accumulator entity as seeded from tilesC1. -/
def wsSeeded : Entity :=
  { classname := "worldspawn", props := [("wad", .str "a.wad")], brushes := [] }

/-- A world template entity whose texture-archive reference differs from the
seeded one. -/
def worldTemplateB : Entity :=
  { classname := "worldspawn", props := [("wad", .str "b.wad")], brushes := [] }

/-- A pipeline state with a freshly seeded accumulator. -/
def stSeeded : MapState :=
  { tiles := tilesC1, worldspawn := wsSeeded, entities := [], missing_gids := []
    warnings := [], tiles_processed := 0, brush_count := 0 }

/-- A non-world template entity with the non-rotatable sentinel angle -1. -/
def detailTemplate : Entity :=
  { classname := "func_door", props := [("angle", .num (-1))], brushes := [] }

/-- Test cache holding the gid 2 prefab and a detail-only prefab under
gid 3. -/
def tilesC8 : TileCache :=
  [(2, prefabGid2), (3, [detailTemplate])]

/-- A free-form object named "light" with no properties. -/
def objLight : TmxObject :=
  { x := 0, y := 0, name := "light", properties := [] }

/-- A cell referencing gid 3. -/
def cellGid3 : Cell :=
  { gid := 3, hflip := false, vflip := false, dflip := false }

/-- A non-world entity whose angle property is 0 (facing along positive
x). -/
def playerStart : Entity :=
  { classname := "info_player_start", props := [("angle", .num 0)], brushes := [] }

/-- A non-world entity carrying a directional mangle property. -/
def mangleEntity : Entity :=
  { classname := "light_flame", props := [("mangle", .rtriple 10 0 20)], brushes := [] }

/-- The object of the specification's placement-arithmetic test: position
(64, 64), property Z = 48, name "info_player_start". -/
def objPlayer : TmxObject :=
  { x := 64, y := 64, name := "info_player_start", properties := [("Z", .num 48)] }

theorem lookupProp_storeProp (ps : List (String × PropVal)) (key k : String) (v : PropVal) :
    lookupProp (storeProp ps key v) k = if k = key then some v else lookupProp ps k := by
  induction ps with
  | nil =>
      by_cases hk : k = key
      · simp [storeProp, lookupProp, hk]
      · simp [storeProp, lookupProp, hk, Ne.symm hk]
  | cons hd tl ih =>
      obtain ⟨a, b⟩ := hd
      by_cases hak : a = key
      · subst hak
        by_cases hk : k = a
        · subst hk
          simp [storeProp, lookupProp]
        · simp [storeProp, lookupProp, hk, Ne.symm hk]
      · by_cases hk : a = k
        · subst hk
          simp [storeProp, lookupProp, hak, Ne.symm hak]
        · simp [storeProp, lookupProp, hak, hk, ih]

theorem lookupProp_not_mem (ps : List (String × PropVal)) (key : String)
    (h : key ∉ ps.map Prod.fst) : lookupProp ps key = none := by
  induction ps with
  | nil => rfl
  | cons hd tl ih =>
      obtain ⟨a, b⟩ := hd
      simp only [List.map_cons, List.mem_cons, not_or] at h
      simp [lookupProp, Ne.symm h.1, ih h.2]

theorem lookupProp_foldl_store (src dst : List (String × PropVal)) (k : String)
    (hn : (src.map Prod.fst).Nodup) :
    lookupProp (src.foldl (fun ps kv => storeProp ps kv.1 kv.2) dst) k =
      match lookupProp src k with
      | some v => some v
      | none => lookupProp dst k := by
  induction src generalizing dst with
  | nil => simp [lookupProp]
  | cons hd tl ih =>
      obtain ⟨a, b⟩ := hd
      simp only [List.map_cons, List.nodup_cons] at hn
      simp only [List.foldl_cons]
      rw [ih _ hn.2]
      by_cases hk : k = a
      · subst hk
        rw [lookupProp_not_mem tl k hn.1]
        simp [lookupProp, lookupProp_storeProp]
      · have hak : ¬ a = k := Ne.symm hk
        rcases hv : lookupProp tl k with _ | w
        · simp [hv, lookupProp, hak, lookupProp_storeProp, hk]
        · simp [hv, lookupProp, hak]

theorem copyProperties_classname (t e : Entity) :
    (copyProperties t e).classname = t.classname := rfl

theorem copyProperties_brushes (t e : Entity) :
    (copyProperties t e).brushes = e.brushes := rfl

theorem adjustEntity_of_worldspawn (mat flip : Mat4) (e : Entity)
    (h : e.classname = "worldspawn") : adjustEntity mat flip e = e := by
  simp [adjustEntity, h]

theorem placeTemplateEntity_world (mat flip : Mat4) (ff : Bool) (st : MapState)
    (t : Entity) (h : t.classname = "worldspawn") :
    placeTemplateEntity mat flip ff st t =
      { st with
          worldspawn :=
            { classname := t.classname
              props := t.props.foldl (fun ps kv => storeProp ps kv.1 kv.2) st.worldspawn.props
              brushes := st.worldspawn.brushes ++ t.brushes.map (transformBrush mat ff) }
          brush_count := st.brush_count + t.brushes.length } := by
  have hc : (copyProperties t st.worldspawn).classname = "worldspawn" := by
    rw [copyProperties_classname, h]
  simp only [placeTemplateEntity, h, if_pos, adjustEntity_of_worldspawn _ _ _ hc]
  simp [copyProperties, h]

theorem placeTemplateEntity_detail (mat flip : Mat4) (ff : Bool) (st : MapState)
    (t : Entity) (h : ¬ t.classname = "worldspawn") :
    placeTemplateEntity mat flip ff st t =
      { st with entities := st.entities ++ [instantiateDetail mat flip ff t]
                brush_count := st.brush_count + t.brushes.length } := by
  simp [placeTemplateEntity, h]

theorem placePrefab_worldspawn_brushes (mat flip : Mat4) (ff : Bool) (prefab : Prefab) :
    ∀ st : MapState, (placePrefab mat flip ff st prefab).worldspawn.brushes =
      st.worldspawn.brushes ++ worldBrushesOf mat ff prefab := by
  induction prefab with
  | nil => intro st; simp [placePrefab, worldBrushesOf]
  | cons t ts ih =>
      intro st
      show (placePrefab mat flip ff (placeTemplateEntity mat flip ff st t) ts).worldspawn.brushes = _
      by_cases h : t.classname = "worldspawn"
      · rw [ih, placeTemplateEntity_world mat flip ff st t h]
        simp [worldBrushesOf, List.filter_cons, h]
      · rw [ih, placeTemplateEntity_detail mat flip ff st t h]
        simp [worldBrushesOf, List.filter_cons, h]

theorem placePrefab_entities (mat flip : Mat4) (ff : Bool) (prefab : Prefab) :
    ∀ st : MapState, (placePrefab mat flip ff st prefab).entities =
      st.entities ++ detailEntitiesOf mat flip ff prefab := by
  induction prefab with
  | nil => intro st; simp [placePrefab, detailEntitiesOf]
  | cons t ts ih =>
      intro st
      show (placePrefab mat flip ff (placeTemplateEntity mat flip ff st t) ts).entities = _
      by_cases h : t.classname = "worldspawn"
      · rw [ih, placeTemplateEntity_world mat flip ff st t h]
        simp [detailEntitiesOf, List.filter_cons, h]
      · rw [ih, placeTemplateEntity_detail mat flip ff st t h]
        simp [detailEntitiesOf, List.filter_cons, h]

/-- C3: every transformed brush plane copies the texture name, offset,
rotation and scale verbatim from the template plane; every boundary point is
mapped through the placement matrix with homogeneous coordinate 1; the point
sequence is reversed exactly when the flip flag — equal to the exclusive or
of the three mirror flags, hence set for one or three active mirrors and
clear for zero or two — is true; and the same brush transform is applied
whether the transformed brushes land on the accumulator (world template) or
on a newly created entity (non-world template). -/
theorem C3_winding_corrector (mat flip : Mat4) (h v d : Bool) (p : Plane) :
    (transformPlane mat (flipFace h v d) p).texture_name = p.texture_name ∧
    (transformPlane mat (flipFace h v d) p).offset = p.offset ∧
    (transformPlane mat (flipFace h v d) p).rotation = p.rotation ∧
    (transformPlane mat (flipFace h v d) p).scale = p.scale ∧
    (transformPlane mat (flipFace h v d) p).points =
      (if xor (xor h v) d then
        (p.points.map mat.applyPoint).reverse
      else p.points.map mat.applyPoint) ∧
    (∀ st : MapState, ∀ t : Entity,
      if t.classname = "worldspawn" then
        (placeTemplateEntity mat flip (flipFace h v d) st t).worldspawn.brushes =
          st.worldspawn.brushes ++ t.brushes.map (transformBrush mat (flipFace h v d))
      else
        (placeTemplateEntity mat flip (flipFace h v d) st t).entities =
          st.entities ++ [instantiateDetail mat flip (flipFace h v d) t] ∧
        (instantiateDetail mat flip (flipFace h v d) t).brushes =
          (adjustEntity mat flip (copyProperties t freshEntity)).brushes ++
            t.brushes.map (transformBrush mat (flipFace h v d))) := by
  refine ⟨rfl, rfl, rfl, rfl, ?_, ?_⟩
  · have hpar : flipFace h v d = xor (xor h v) d := by
      cases h <;> cases v <;> cases d <;> rfl
    rw [transformPlane, hpar]
  · intro st t
    by_cases ht : t.classname = "worldspawn"
    · rw [if_pos ht, placeTemplateEntity_world mat flip _ st t ht]
    · rw [if_neg ht, placeTemplateEntity_detail mat flip _ st t ht]
      exact ⟨rfl, rfl⟩

/-- C4: placing prefabs appends the transformed brushes of their world
template entities — k1 + ... + kN of them across N placements, in placement
order — to the single accumulator entity, world templates produce no new
entity in the output list, and every non-world template entity becomes its
own distinct entity per placement. -/
theorem C4_accumulator_merge (mat flip : Mat4) (ff : Bool) (st : MapState)
    (prefab : Prefab) (ps : List (Mat4 × Mat4 × Bool × Prefab)) :
    (placePrefab mat flip ff st prefab).worldspawn.brushes =
      st.worldspawn.brushes ++ worldBrushesOf mat ff prefab ∧
    (placePrefab mat flip ff st prefab).entities =
      st.entities ++ detailEntitiesOf mat flip ff prefab ∧
    (placeSeq st ps).worldspawn.brushes =
      st.worldspawn.brushes ++
        (ps.map (fun q => worldBrushesOf q.1 q.2.2.1 q.2.2.2)).flatten ∧
    (placeSeq st ps).entities =
      st.entities ++
        (ps.map (fun q => detailEntitiesOf q.1 q.2.1 q.2.2.1 q.2.2.2)).flatten := by
  refine ⟨placePrefab_worldspawn_brushes mat flip ff prefab st,
    placePrefab_entities mat flip ff prefab st, ?_⟩
  induction ps generalizing st with
  | nil => simp [placeSeq]
  | cons q qs ih =>
      obtain ⟨qmat, qflip, qff, qprefab⟩ := q
      have hstep : placeSeq st ((qmat, qflip, qff, qprefab) :: qs) =
          placeSeq (placePrefab qmat qflip qff st qprefab) qs := rfl
      rw [hstep]
      obtain ⟨ih1, ih2⟩ := ih (placePrefab qmat qflip qff st qprefab)
      constructor
      · rw [ih1, placePrefab_worldspawn_brushes]
        simp [List.append_assoc]
      · rw [ih2, placePrefab_entities]
        simp [List.append_assoc]

/-- C1: the claim says every cell with an unresolvable gid contributes
nothing, is not counted as processed, and never aborts the pass, including
the second and later cells with the same missing gid.  Evaluating the code
at the failing input shows otherwise: the first cell referencing missing
gid 5 is skipped with one warning, but a layer with two such cells crashes
with a KeyError on the second cell, because the dedup test suppresses the
skip together with the warning. -/
theorem C1_missing_gid_second_cell_crash :
    runPipeline cfgSquare tilesC1 [Layer.tileLayer [cellMissing]] =
      .ok { tiles := tilesC1
            worldspawn :=
              { classname := "worldspawn", props := [("wad", .str "quake.wad")]
                brushes := [] }
            entities := [], missing_gids := [5], warnings := [5]
            tiles_processed := 0, brush_count := 0 } ∧
    runPipeline cfgSquare tilesC1 [Layer.tileLayer [cellMissing, cellMissing]] =
      .error (.keyError 5) := by
  constructor <;> rfl

/-- C2: the claim derives the cell row as index div width; the code divides
by the grid height (tmx2map.py line 225).  On the non-square 2 by 4 grid
with 3D tile size 64, flat index 2 is the first cell of the second row: the
claimed (spec) y offset is 32, but the code computes 96, and the placement
matrix's y translation entry carries the code's value.  The x offset and the
two derivations agree only when width = height. -/
theorem C2_row_derivation_divergence :
    tilemap_offset_x cfgC2 2 = -32 ∧
    tilemap_offset_y cfgC2 2 = 96 ∧
    tilemap_offset_y_spec cfgC2 2 = 32 ∧
    (tileTransform cfgC2 2 false false false).m13 = 96 ∧
    tilemap_offset_y cfgC2 2 ≠ tilemap_offset_y_spec cfgC2 2 := by
  refine ⟨?_, ?_, ?_, ?_, ?_⟩ <;>
    simp [tilemap_offset_x, tilemap_offset_y, tilemap_offset_y_spec, cell_x, cell_y,
      cell_y_spec, cfgC2, tilemap_width_3d, tilemap_height_3d, tileTransform,
      translationMat, flipMatrix, identityMat4, Mat4.mul] <;>
    norm_num

/-- C5 counterexample: the accumulator is seeded with wad "a.wad", and
placing a world template entity whose wad is "b.wad" overwrites the
accumulator's wad — the property-copy loop of tmx2map.py lines 263-265 runs
for the worldspawn branch too, so a scalar property of the accumulator other
than its brush list does change. -/
theorem C5_counterexample :
    stSeeded.worldspawn.getProp "wad" = some (.str "a.wad") ∧
    (placeTemplateEntity identityMat4 identityMat4 false stSeeded
        worldTemplateB).worldspawn.getProp "wad" = some (.str "b.wad") := by
  constructor <;> rfl

/-- C5 amended: every placement of a world template entity copies each of
the template's non-brush properties onto the accumulator, overwriting the
values seeded at creation (properties the template lacks are retained); the
classname stays "worldspawn", only the brush list grows by the transformed
brushes, and no new entity is created. -/
theorem C5_world_placement_property_copy (mat flip : Mat4) (ff : Bool)
    (st : MapState) (t : Entity) (hw : t.classname = "worldspawn")
    (hn : (t.props.map Prod.fst).Nodup) (k : String) :
    (placeTemplateEntity mat flip ff st t).worldspawn.classname = "worldspawn" ∧
    (placeTemplateEntity mat flip ff st t).worldspawn.getProp k =
      (match t.getProp k with
       | some v => some v
       | none => st.worldspawn.getProp k) ∧
    (placeTemplateEntity mat flip ff st t).worldspawn.brushes =
      st.worldspawn.brushes ++ t.brushes.map (transformBrush mat ff) ∧
    (placeTemplateEntity mat flip ff st t).entities = st.entities := by
  rw [placeTemplateEntity_world mat flip ff st t hw]
  refine ⟨hw, ?_, rfl, rfl⟩
  show lookupProp (t.props.foldl (fun ps kv => storeProp ps kv.1 kv.2)
    st.worldspawn.props) k = _
  rw [lookupProp_foldl_store t.props st.worldspawn.props k hn]
  rfl

/-- C5 witness: the amended statement applied to the concrete seeded state
and the world template carrying wad "b.wad". -/
theorem C5_world_placement_property_copy_witness :
    (placeTemplateEntity identityMat4 identityMat4 false stSeeded
        worldTemplateB).worldspawn.classname = "worldspawn" ∧
    (placeTemplateEntity identityMat4 identityMat4 false stSeeded
        worldTemplateB).worldspawn.getProp "wad" = some (PropVal.str "b.wad") ∧
    (placeTemplateEntity identityMat4 identityMat4 false stSeeded
        worldTemplateB).entities = [] := by
  have h := C5_world_placement_property_copy identityMat4 identityMat4 false
    stSeeded worldTemplateB rfl (by decide) "wad"
  exact ⟨h.1, h.2.1, h.2.2.2⟩

theorem getProp_setProp (e : Entity) (key k : String) (v : PropVal) :
    (e.setProp key v).getProp k = if k = key then some v else e.getProp k :=
  lookupProp_storeProp e.props key k v

theorem transformOrigin_getProp_ne (mat : Mat4) (e : Entity) (k : String)
    (hk : ¬ k = "origin") :
    (transformOrigin mat e).getProp k = e.getProp k := by
  rcases ho : e.getProp "origin" with _ | val
  · simp [transformOrigin, ho]
  · cases val <;> simp [transformOrigin, ho, getProp_setProp, hk]

theorem defaultAngle_getProp_ne (e : Entity) (k : String) (hk : ¬ k = "angle") :
    (defaultAngle e).getProp k = e.getProp k := by
  by_cases ha : (e.getProp "angle").isNone
  · simp [defaultAngle, ha, getProp_setProp, hk]
  · simp [defaultAngle, ha]

theorem defaultAngle_getProp_angle_some (e : Entity) (v : PropVal)
    (h : e.getProp "angle" = some v) : (defaultAngle e).getProp "angle" = some v := by
  simp [defaultAngle, h]

theorem defaultAngle_getProp_angle_none (e : Entity)
    (h : e.getProp "angle" = none) :
    (defaultAngle e).getProp "angle" = some (.num 0) := by
  simp [defaultAngle, h, getProp_setProp]

theorem rederiveDirections_mangle (flip : Mat4) (e : Entity) (p b r : ℝ)
    (h : e.getProp "mangle" = some (.rtriple p b r)) :
    (rederiveDirections flip e).getProp "mangle" =
      some (.rtriple p (angle_between (flip.applyPoint (vector_from_angle b))) r) := by
  simp [rederiveDirections, h, getProp_setProp]

theorem rederiveDirections_angle_nonneg (flip : Mat4) (e : Entity) (a : ℚ)
    (hm : e.getProp "mangle" = none) (ha : e.getProp "angle" = some (.num a))
    (h0 : 0 ≤ a) :
    (rederiveDirections flip e).getProp "angle" =
      some (.real (angle_between (flip.applyPoint (vector_from_angle (a : ℝ))))) := by
  simp [rederiveDirections, hm, ha, h0, getProp_setProp]

theorem rederiveDirections_angle_neg (flip : Mat4) (e : Entity) (a : ℚ)
    (hm : e.getProp "mangle" = none) (ha : e.getProp "angle" = some (.num a))
    (h0 : a < 0) :
    (rederiveDirections flip e).getProp "angle" = some (.num a) := by
  simp [rederiveDirections, hm, ha, not_le.mpr h0]

theorem adjustEntity_not_world (mat flip : Mat4) (e : Entity)
    (hw : ¬ e.classname = "worldspawn") :
    adjustEntity mat flip e =
      rederiveDirections flip (defaultAngle (transformOrigin mat e)) := by
  simp [adjustEntity, hw]

/-- C6: for a placed non-world entity, a missing "angle" property is first
defaulted to 0 and then — having no "mangle" and being nonnegative —
re-derived; a "mangle" property has only its bearing component converted to
a direction vector, rotated by the flip matrix alone (the conclusion does
not mention the placement matrix, so the translation part cannot affect the
direction), and converted back with the first and third components
unchanged; an "angle" that is >= 0 is re-derived the same way, and a
negative angle is left untouched.  Concretely, an entity with angle 0
placed under the horizontal mirror alone ends with angle 180. -/
theorem C6_angle_rederivation (mat flip : Mat4) (e : Entity)
    (hw : ¬ e.classname = "worldspawn") :
    (∀ p b r : ℝ, e.getProp "mangle" = some (.rtriple p b r) →
      (adjustEntity mat flip e).getProp "mangle" =
        some (.rtriple p (angle_between (flip.applyPoint (vector_from_angle b))) r)) ∧
    (∀ a : ℚ, e.getProp "mangle" = none → e.getProp "angle" = some (.num a) →
      0 ≤ a →
      (adjustEntity mat flip e).getProp "angle" =
        some (.real (angle_between (flip.applyPoint (vector_from_angle (a : ℝ)))))) ∧
    (∀ a : ℚ, e.getProp "mangle" = none → e.getProp "angle" = some (.num a) →
      a < 0 →
      (adjustEntity mat flip e).getProp "angle" = some (.num a)) ∧
    (e.getProp "mangle" = none → e.getProp "angle" = none →
      (adjustEntity mat flip e).getProp "angle" =
        some (.real (angle_between (flip.applyPoint (vector_from_angle 0))))) ∧
    (adjustEntity (tileTransform cfgSquare 0 true false false)
        (flipMatrix true false false) playerStart).getProp "angle" =
      some (.real 180) := by
  have hmangle : ∀ ee : Entity,
      (defaultAngle (transformOrigin mat ee)).getProp "mangle" = ee.getProp "mangle" := by
    intro ee
    rw [defaultAngle_getProp_ne _ _ (by decide), transformOrigin_getProp_ne _ _ _ (by decide)]
  refine ⟨?_, ?_, ?_, ?_, ?_⟩
  · intro p b r hm
    rw [adjustEntity_not_world mat flip e hw]
    exact rederiveDirections_mangle _ _ p b r ((hmangle e).trans hm)
  · intro a hm ha h0
    rw [adjustEntity_not_world mat flip e hw]
    refine rederiveDirections_angle_nonneg _ _ a ((hmangle e).trans hm) ?_ h0
    rw [defaultAngle_getProp_angle_some _ _ ((transformOrigin_getProp_ne mat e _ (by decide)).trans ha)]
  · intro a hm ha h0
    rw [adjustEntity_not_world mat flip e hw]
    refine rederiveDirections_angle_neg _ _ a ((hmangle e).trans hm) ?_ h0
    rw [defaultAngle_getProp_angle_some _ _ ((transformOrigin_getProp_ne mat e _ (by decide)).trans ha)]
  · intro hm ha
    rw [adjustEntity_not_world mat flip e hw]
    have h1 : (defaultAngle (transformOrigin mat e)).getProp "angle" = some (.num 0) :=
      defaultAngle_getProp_angle_none _ ((transformOrigin_getProp_ne mat e _ (by decide)).trans ha)
    have h2 := rederiveDirections_angle_nonneg flip (defaultAngle (transformOrigin mat e))
      0 ((hmangle e).trans hm) h1 le_rfl
    rw [h2]
    norm_num
  · have hvec : vector_from_angle 0 = ⟨1, 0, 0⟩ := by
      simp [vector_from_angle]
    have happ : (flipMatrix true false false).applyPoint ⟨1, 0, 0⟩ = ⟨-1, 0, 0⟩ := by
      simp [flipMatrix, identityMat4, horizontal_flip, Mat4.mul, Mat4.applyPoint]
    have harg : angle_between ⟨-1, 0, 0⟩ = 180 := by
      simp only [angle_between]
      have hc : ((-1 : ℝ) : ℂ) + ((0 : ℝ) : ℂ) * Complex.I = -1 := by
        norm_num
      rw [hc, Complex.arg_neg_one, mul_comm, mul_div_assoc,
        div_self Real.pi_ne_zero, mul_one]
    have hw' : ¬ playerStart.classname = "worldspawn" := by decide
    rw [adjustEntity_not_world _ _ _ hw']
    have hm : (defaultAngle (transformOrigin (tileTransform cfgSquare 0 true false false)
        playerStart)).getProp "mangle" = none := by
      rw [defaultAngle_getProp_ne _ _ (by decide),
        transformOrigin_getProp_ne _ _ _ (by decide)]
      rfl
    have ha : (defaultAngle (transformOrigin (tileTransform cfgSquare 0 true false false)
        playerStart)).getProp "angle" = some (.num 0) := by
      refine defaultAngle_getProp_angle_some _ _ ?_
      rw [transformOrigin_getProp_ne _ _ _ (by decide)]
      rfl
    rw [rederiveDirections_angle_nonneg _ _ 0 hm ha le_rfl]
    rw [show ((0 : ℚ) : ℝ) = (0 : ℝ) by norm_num, hvec, happ, harg]

theorem placeObject_scan_eq (props : List (String × PropVal)) (z0 : ℝ) (e0 : Entity) :
    props.foldl
      (fun (acc : ℝ × Entity) kv =>
        if kv.1 = "Z" then (zValue kv.2 acc.1, acc.2)
        else (acc.1, acc.2.setProp kv.1 kv.2)) (z0, e0) =
      (props.foldl (fun z kv => if kv.1 = "Z" then zValue kv.2 z else z) z0,
       props.foldl (fun e kv => if kv.1 = "Z" then e else e.setProp kv.1 kv.2) e0) := by
  induction props generalizing z0 e0 with
  | nil => rfl
  | cons hd tl ih =>
      by_cases ha : hd.1 = "Z" <;> simp [ha, ih]

theorem placeObject_eq (cfg : Config) (obj : TmxObject) :
    placeObject cfg obj =
      { (scanZEntity obj.properties).setProp "origin"
          (.vec ⟨obj.x * (cfg.tile_size_3d / cfg.tile_size_2d) - tilemap_width_3d cfg / 2,
                 (cfg.height : ℝ) * cfg.tile_size_3d -
                   obj.y * (cfg.tile_size_3d / cfg.tile_size_2d) - tilemap_height_3d cfg / 2,
                 zOf obj.properties⟩) with
        classname := obj.name } := by
  simp only [placeObject, placeObject_scan_eq, scanZEntity, zOf]

theorem setProp_classname (e : Entity) (key : String) (v : PropVal) :
    (e.setProp key v).classname = e.classname := rfl

theorem setProp_brushes (e : Entity) (key : String) (v : PropVal) :
    (e.setProp key v).brushes = e.brushes := rfl

theorem skipZ_fold_classname (props : List (String × PropVal)) :
    ∀ e0 : Entity,
      (props.foldl (fun e kv => if kv.1 = "Z" then e else e.setProp kv.1 kv.2)
        e0).classname = e0.classname := by
  induction props with
  | nil => intro e0; rfl
  | cons hd tl ih =>
      intro e0
      by_cases ha : hd.1 = "Z"
      · rw [List.foldl_cons, if_pos ha]
        exact ih e0
      · rw [List.foldl_cons, if_neg ha]
        exact ih _

theorem skipZ_fold_brushes (props : List (String × PropVal)) :
    ∀ e0 : Entity,
      (props.foldl (fun e kv => if kv.1 = "Z" then e else e.setProp kv.1 kv.2)
        e0).brushes = e0.brushes := by
  induction props with
  | nil => intro e0; rfl
  | cons hd tl ih =>
      intro e0
      by_cases ha : hd.1 = "Z"
      · rw [List.foldl_cons, if_pos ha]
        exact ih e0
      · rw [List.foldl_cons, if_neg ha]
        exact ih _

theorem skipZ_fold_getProp_Z (props : List (String × PropVal)) :
    ∀ e0 : Entity, e0.getProp "Z" = none →
      (props.foldl (fun e kv => if kv.1 = "Z" then e else e.setProp kv.1 kv.2)
        e0).getProp "Z" = none := by
  induction props with
  | nil => intro e0 h; exact h
  | cons hd tl ih =>
      intro e0 h
      by_cases ha : hd.1 = "Z"
      · simpa [ha] using ih e0 h
      · simp only [List.foldl_cons, ha, if_false]
        refine ih _ ?_
        rw [getProp_setProp]
        simp [h, Ne.symm ha]

theorem skipZ_fold_getProp (props : List (String × PropVal)) (k : String)
    (hk : ¬ k = "Z") (hn : (props.map Prod.fst).Nodup) :
    ∀ e0 : Entity,
      (props.foldl (fun e kv => if kv.1 = "Z" then e else e.setProp kv.1 kv.2)
        e0).getProp k =
        match lookupProp props k with
        | some v => some v
        | none => e0.getProp k := by
  induction props with
  | nil => intro e0; simp [lookupProp]
  | cons hd tl ih =>
      obtain ⟨a, b⟩ := hd
      simp only [List.map_cons, List.nodup_cons] at hn
      intro e0
      by_cases ha : a = "Z"
      · have hak : ¬ a = k := fun hh => hk (hh.symm.trans ha)
        simp only [List.foldl_cons, ha, if_true]
        rw [ih hn.2 e0]
        simp [lookupProp, hak, Ne.symm hk]
      · simp only [List.foldl_cons, ha, if_false]
        rw [ih hn.2 _]
        by_cases hak : k = a
        · subst hak
          rw [lookupProp_not_mem tl k hn.1]
          simp [lookupProp, getProp_setProp]
        · have hak' : ¬ a = k := Ne.symm hak
          rcases hv : lookupProp tl k with _ | w
          · simp [hv, lookupProp, hak', getProp_setProp, hak]
          · simp [hv, lookupProp, hak']

theorem scanZ_getProp_Z (props : List (String × PropVal)) (v : PropVal) :
    ((scanZEntity props).setProp "origin" v).getProp "Z" = none := by
  rw [getProp_setProp]
  simp only [show ¬ ("Z" : String) = "origin" by decide, if_false]
  exact skipZ_fold_getProp_Z props _ rfl

theorem scanZ_getProp_origin (props : List (String × PropVal)) (v : PropVal) :
    ((scanZEntity props).setProp "origin" v).getProp "origin" = some v := by
  rw [getProp_setProp]
  simp

theorem scanZ_getProp_other (props : List (String × PropVal)) (v : PropVal)
    (k : String) (hkz : ¬ k = "Z") (hko : ¬ k = "origin")
    (hn : (props.map Prod.fst).Nodup) :
    ((scanZEntity props).setProp "origin" v).getProp k = lookupProp props k := by
  rw [getProp_setProp]
  simp only [hko, if_false]
  show (scanZEntity props).getProp k = _
  simp only [scanZEntity]
  rw [skipZ_fold_getProp props k hkz hn]
  rcases hv : lookupProp props k with _ | w <;> simp [hv, Entity.getProp, lookupProp]

/-- C7: the object placer removes the property literally named "Z" (its
value becomes the vertical coordinate, defaulting to 0 when absent), copies
all remaining properties verbatim, sets the classname to the object's name,
produces no brushes, and stores the origin
(x * scale - mapWidth3D / 2, gridHeight * tileSize3D - y * scale -
mapHeight3D / 2, z) with scale = tileSize3D / tileSize2D.  In the concrete
instance — 2D tile size 32, 3D tile size 64, a 4 by 4 grid, an object at
(64, 64) with Z = 48 named "info_player_start" — the resulting origin is
(0, 0, 48) and the classname is "info_player_start". -/
theorem C7_object_placer (cfg : Config) (obj : TmxObject)
    (hn : (obj.properties.map Prod.fst).Nodup) :
    (placeObject cfg obj).classname = obj.name ∧
    (placeObject cfg obj).brushes = [] ∧
    (placeObject cfg obj).getProp "Z" = none ∧
    (∀ k, ¬ k = "Z" → ¬ k = "origin" →
      (placeObject cfg obj).getProp k = lookupProp obj.properties k) ∧
    (placeObject cfg obj).getProp "origin" =
      some (.vec ⟨obj.x * (cfg.tile_size_3d / cfg.tile_size_2d) - tilemap_width_3d cfg / 2,
                  (cfg.height : ℝ) * cfg.tile_size_3d -
                    obj.y * (cfg.tile_size_3d / cfg.tile_size_2d) - tilemap_height_3d cfg / 2,
                  zOf obj.properties⟩) ∧
    (placeObject cfgSquare objPlayer).classname = "info_player_start" ∧
    (placeObject cfgSquare objPlayer).getProp "origin" = some (.vec ⟨0, 0, 48⟩) := by
  rw [placeObject_eq cfg obj]
  refine ⟨rfl, ?_, ?_, ?_, ?_, rfl, ?_⟩
  · exact skipZ_fold_brushes obj.properties
      { classname := "", props := [], brushes := [] }
  · exact scanZ_getProp_Z obj.properties _
  · intro k hkz hko
    exact scanZ_getProp_other obj.properties _ k hkz hko hn
  · exact scanZ_getProp_origin obj.properties _
  · rw [placeObject_eq cfgSquare objPlayer]
    refine (scanZ_getProp_origin objPlayer.properties _).trans ?_
    simp only [Option.some.injEq, cfgSquare, objPlayer, tilemap_width_3d,
      tilemap_height_3d]
    norm_num [zOf, zValue, Vec3.mk.injEq]

/-- C7 witness: the object placer applied to the specification's concrete
object, whose property keys are duplicate-free. -/
theorem C7_object_placer_witness :
    (placeObject cfgSquare objPlayer).classname = "info_player_start" ∧
    (placeObject cfgSquare objPlayer).getProp "Z" = none ∧
    (placeObject cfgSquare objPlayer).getProp "light" = none ∧
    (placeObject cfgSquare objPlayer).brushes = [] := by
  have h := C7_object_placer cfgSquare objPlayer (by decide)
  exact ⟨h.2.2.2.2.2.1, h.2.2.1, (h.2.2.2.1 "light" (by decide) (by decide)).trans rfl, h.2.1⟩

/-- C6 witness: the re-derivation applied to a concrete mangle-carrying
entity and to the sentinel angle -1 entity. -/
theorem C6_angle_rederivation_witness :
    (adjustEntity identityMat4 identityMat4 mangleEntity).getProp "mangle" =
      some (.rtriple 10 (angle_between (identityMat4.applyPoint (vector_from_angle 0))) 20) ∧
    (adjustEntity identityMat4 identityMat4 detailTemplate).getProp "angle" =
      some (.num (-1)) := by
  have h1 := C6_angle_rederivation identityMat4 identityMat4 mangleEntity (by decide)
  have h2 := C6_angle_rederivation identityMat4 identityMat4 detailTemplate (by decide)
  exact ⟨h1.1 10 0 20 rfl, h2.2.2.1 (-1) rfl rfl (by norm_num)⟩

theorem processCell_ok_shape (cfg : Config) (st : MapState) (ic : ℕ × Cell)
    (st2 : MapState) (h : processCell cfg st ic = .ok st2) :
    st2.entities = st.entities ∨
    (∃ mat flip ff prefab, st2.entities =
      (placePrefab mat flip ff
        { st with tiles_processed := st.tiles_processed + 1 } prefab).entities ∧
      st2.tiles =
        (placePrefab mat flip ff
          { st with tiles_processed := st.tiles_processed + 1 } prefab).tiles ∧
      lookupTile st.tiles ic.2.gid = some prefab) := by
  simp only [processCell] at h
  split at h
  · injection h with h2
    subst h2
    exact Or.inl rfl
  · split at h
    · injection h with h2
      subst h2
      exact Or.inl rfl
    · split at h
      · exact Except.noConfusion h
      · injection h with h2
        subst h2
        next prefab heq =>
          exact Or.inr ⟨_, _, _, prefab, rfl, rfl, heq⟩

theorem placeTemplateEntity_tiles (mat flip : Mat4) (ff : Bool) (st : MapState)
    (t : Entity) : (placeTemplateEntity mat flip ff st t).tiles = st.tiles := by
  rw [placeTemplateEntity]
  split <;> rfl

theorem placePrefab_tiles (mat flip : Mat4) (ff : Bool) (prefab : Prefab) :
    ∀ st : MapState, (placePrefab mat flip ff st prefab).tiles = st.tiles := by
  induction prefab with
  | nil => intro st; rfl
  | cons t ts ih =>
      intro st
      exact (ih (placeTemplateEntity mat flip ff st t)).trans
        (placeTemplateEntity_tiles mat flip ff st t)

theorem processCell_entities_append (cfg : Config) (st : MapState) (ic : ℕ × Cell)
    (st2 : MapState) (h : processCell cfg st ic = .ok st2) :
    ∃ tail, st2.entities = st.entities ++ tail := by
  rcases processCell_ok_shape cfg st ic st2 h with he | ⟨mat, flip, ff, prefab, he, -, -⟩
  · exact ⟨[], by simp [he]⟩
  · rw [he, placePrefab_entities]
    exact ⟨detailEntitiesOf mat flip ff prefab, rfl⟩

theorem processCell_tiles (cfg : Config) (st : MapState) (ic : ℕ × Cell)
    (st2 : MapState) (h : processCell cfg st ic = .ok st2) : st2.tiles = st.tiles := by
  rcases processCell_ok_shape cfg st ic st2 h with he | ⟨mat, flip, ff, prefab, -, ht, -⟩
  · -- the skip and warn branches keep every field except warnings and gids
    simp only [processCell] at h
    split at h
    · injection h with h2; subst h2; rfl
    · split at h
      · injection h with h2; subst h2; rfl
      · split at h
        · exact Except.noConfusion h
        · injection h with h2; subst h2; rw [placePrefab_tiles]
  · rw [ht, placePrefab_tiles]

theorem processCells_entities_append (cfg : Config) :
    ∀ (cells : List (ℕ × Cell)) (st st2 : MapState),
      processCells cfg st cells = .ok st2 →
      ∃ tail, st2.entities = st.entities ++ tail := by
  intro cells
  induction cells with
  | nil =>
      intro st st2 h
      injection h with h2
      subst h2
      exact ⟨[], by simp⟩
  | cons ic rest ih =>
      intro st st2 h
      simp only [processCells] at h
      rcases hc : processCell cfg st ic with err | st1
      · rw [hc] at h; exact Except.noConfusion h
      · rw [hc] at h
        obtain ⟨t1, h1⟩ := processCell_entities_append cfg st ic st1 hc
        obtain ⟨t2, h2⟩ := ih st1 st2 h
        exact ⟨t1 ++ t2, by rw [h2, h1, List.append_assoc]⟩

theorem processCells_tiles (cfg : Config) :
    ∀ (cells : List (ℕ × Cell)) (st st2 : MapState),
      processCells cfg st cells = .ok st2 → st2.tiles = st.tiles := by
  intro cells
  induction cells with
  | nil =>
      intro st st2 h
      injection h with h2
      subst h2
      rfl
  | cons ic rest ih =>
      intro st st2 h
      simp only [processCells] at h
      rcases hc : processCell cfg st ic with err | st1
      · rw [hc] at h; exact Except.noConfusion h
      · rw [hc] at h
        exact (ih st1 st2 h).trans (processCell_tiles cfg st ic st1 hc)

theorem processLayer_objectGroup (cfg : Config) (st : MapState)
    (objs : List TmxObject) :
    processLayer cfg st (.objectGroup objs) =
      .ok { st with entities := st.entities ++ objs.map (placeObject cfg) } := rfl

theorem processLayer_entities_append (cfg : Config) (st : MapState) (l : Layer)
    (st2 : MapState) (h : processLayer cfg st l = .ok st2) :
    ∃ tail, st2.entities = st.entities ++ tail := by
  cases l with
  | tileLayer cells => exact processCells_entities_append cfg cells.enum st st2 h
  | objectGroup objs =>
      rw [processLayer_objectGroup] at h
      injection h with h2
      subst h2
      exact ⟨objs.map (placeObject cfg), rfl⟩

theorem processLayer_tiles (cfg : Config) (st : MapState) (l : Layer)
    (st2 : MapState) (h : processLayer cfg st l = .ok st2) : st2.tiles = st.tiles := by
  cases l with
  | tileLayer cells => exact processCells_tiles cfg cells.enum st st2 h
  | objectGroup objs =>
      rw [processLayer_objectGroup] at h
      injection h with h2
      subst h2
      rfl

theorem processLayers_entities_append (cfg : Config) :
    ∀ (layers : List Layer) (st st2 : MapState),
      processLayers cfg st layers = .ok st2 →
      ∃ tail, st2.entities = st.entities ++ tail := by
  intro layers
  induction layers with
  | nil =>
      intro st st2 h
      injection h with h2
      subst h2
      exact ⟨[], by simp⟩
  | cons l rest ih =>
      intro st st2 h
      simp only [processLayers] at h
      rcases hl : processLayer cfg st l with err | st1
      · rw [hl] at h; exact Except.noConfusion h
      · rw [hl] at h
        obtain ⟨t1, h1⟩ := processLayer_entities_append cfg st l st1 hl
        obtain ⟨t2, h2⟩ := ih st1 st2 h
        exact ⟨t1 ++ t2, by rw [h2, h1, List.append_assoc]⟩

theorem processLayers_tiles (cfg : Config) :
    ∀ (layers : List Layer) (st st2 : MapState),
      processLayers cfg st layers = .ok st2 → st2.tiles = st.tiles := by
  intro layers
  induction layers with
  | nil =>
      intro st st2 h
      injection h with h2
      subst h2
      rfl
  | cons l rest ih =>
      intro st st2 h
      simp only [processLayers] at h
      rcases hl : processLayer cfg st l with err | st1
      · rw [hl] at h; exact Except.noConfusion h
      · rw [hl] at h
        exact (ih st1 st2 h).trans (processLayer_tiles cfg st l st1 hl)

theorem processCell_entities_exact (cfg : Config) (st : MapState) (ic : ℕ × Cell)
    (st2 : MapState) (h : processCell cfg st ic = .ok st2) :
    st2.entities = st.entities ++ cellEntities cfg st.tiles ic := by
  simp only [processCell] at h
  split at h
  · next h0 =>
    injection h with h2
    subst h2
    simp [cellEntities, h0]
  · next h0 =>
    split at h
    · next h1 =>
      injection h with h2
      subst h2
      obtain ⟨hf, -⟩ := h1
      rcases hl : lookupTile st.tiles ic.2.gid with _ | prefab
      · simp [cellEntities, h0, hl]
      · rw [hl] at hf
        rcases prefab with _ | ⟨e, es⟩
        · simp [cellEntities, h0, hl, detailEntitiesOf]
        · simp [prefabFalsy] at hf
    · split at h
      · exact Except.noConfusion h
      · next prefab heq =>
        injection h with h2
        subst h2
        rw [placePrefab_entities]
        simp only [cellEntities, h0, if_false, heq]

theorem processCells_entities_exact (cfg : Config) :
    ∀ (cells : List (ℕ × Cell)) (st st2 : MapState),
      processCells cfg st cells = .ok st2 →
      st2.entities = st.entities ++ (cells.map (cellEntities cfg st.tiles)).flatten := by
  intro cells
  induction cells with
  | nil =>
      intro st st2 h
      injection h with h2
      subst h2
      simp
  | cons ic rest ih =>
      intro st st2 h
      simp only [processCells] at h
      rcases hc : processCell cfg st ic with err | st1
      · rw [hc] at h; exact Except.noConfusion h
      · rw [hc] at h
        have h1 := processCell_entities_exact cfg st ic st1 hc
        have ht := processCell_tiles cfg st ic st1 hc
        have h2 := ih st1 st2 h
        rw [h2, ht, h1]
        simp [List.append_assoc]

theorem processLayer_entities_exact (cfg : Config) (st : MapState) (l : Layer)
    (st2 : MapState) (h : processLayer cfg st l = .ok st2) :
    st2.entities = st.entities ++ layerEntities cfg st.tiles l := by
  cases l with
  | tileLayer cells => exact processCells_entities_exact cfg cells.enum st st2 h
  | objectGroup objs =>
      rw [processLayer_objectGroup] at h
      injection h with h2
      subst h2
      rfl

theorem processLayers_entities_exact (cfg : Config) :
    ∀ (layers : List Layer) (st st2 : MapState),
      processLayers cfg st layers = .ok st2 →
      st2.entities = st.entities ++ (layers.map (layerEntities cfg st.tiles)).flatten := by
  intro layers
  induction layers with
  | nil =>
      intro st st2 h
      injection h with h2
      subst h2
      simp
  | cons l rest ih =>
      intro st st2 h
      simp only [processLayers] at h
      rcases hl : processLayer cfg st l with err | st1
      · rw [hl] at h; exact Except.noConfusion h
      · rw [hl] at h
        have h1 := processLayer_entities_exact cfg st l st1 hl
        have ht := processLayer_tiles cfg st l st1 hl
        have h2 := ih st1 st2 h
        rw [h2, ht, h1]
        simp [List.append_assoc]

/-- C8 counterexample: with an object group placed before a tile layer in
the source, the output entity list is worldspawn, then the object-layer
entity "light", then the tile-layer entity "func_door" — an object-layer
entity precedes a tile-layer entity, refuting the claim that every
tile-layer entity precedes every object-layer entity. -/
theorem C8_counterexample :
    (runPipeline cfgSquare tilesC8
        [Layer.objectGroup [objLight], Layer.tileLayer [cellGid3]]).map
      (fun st => (finalEntities st).map Entity.classname) =
      .ok ["worldspawn", "light", "func_door"] := by
  rfl

/-- C8 amended: the accumulator entity is always the first element of the
output list; every successful layer appends exactly its own entities at the
end of the list in layer source order — an object group appends exactly its
placed objects in source order, a tile layer appends exactly its cells'
contributions in row-major enumeration order, and a list of layers appends
the per-layer contributions concatenated in source order — so tile-layer
entities precede object-layer entities only when the tile layers precede
the object layers in the source. -/
theorem C8_output_order (cfg : Config) (st : MapState) :
    (∀ objs, processLayer cfg st (.objectGroup objs) =
      .ok { st with entities := st.entities ++ objs.map (placeObject cfg) }) ∧
    (∀ cells st2, processCells cfg st cells = .ok st2 →
      st2.entities = st.entities ++ (cells.map (cellEntities cfg st.tiles)).flatten) ∧
    (∀ l st2, processLayer cfg st l = .ok st2 →
      st2.entities = st.entities ++ layerEntities cfg st.tiles l) ∧
    (∀ layers st2, processLayers cfg st layers = .ok st2 →
      st2.entities = st.entities ++ (layers.map (layerEntities cfg st.tiles)).flatten) ∧
    (∀ st2 : MapState, finalEntities st2 = st2.worldspawn :: st2.entities) :=
  ⟨fun objs => processLayer_objectGroup cfg st objs,
   fun cells st2 h => processCells_entities_exact cfg cells st st2 h,
   fun l st2 h => processLayer_entities_exact cfg st l st2 h,
   fun layers st2 h => processLayers_entities_exact cfg layers st st2 h,
   fun _ => rfl⟩

/-- C8 witness: the amended statement applied to the seeded state, for a
one-object layer, a one-cell tile layer (taking the warn-and-skip path for
its unmapped gid), and a one-layer list. -/
theorem C8_output_order_witness :
    processLayer cfgSquare stSeeded (.objectGroup [objLight]) =
      .ok { stSeeded with
              entities := stSeeded.entities ++ [objLight].map (placeObject cfgSquare) } ∧
    ({ stSeeded with missing_gids := [3], warnings := [3] } : MapState).entities =
      stSeeded.entities ++
        layerEntities cfgSquare stSeeded.tiles (.tileLayer [cellGid3]) ∧
    ({ stSeeded with entities := [placeObject cfgSquare objLight] } : MapState).entities =
      stSeeded.entities ++
        ([Layer.objectGroup [objLight]].map (layerEntities cfgSquare stSeeded.tiles)).flatten ∧
    finalEntities stSeeded = stSeeded.worldspawn :: stSeeded.entities := by
  have h := C8_output_order cfgSquare stSeeded
  refine ⟨h.1 [objLight], ?_, ?_, h.2.2.2.2 stSeeded⟩
  · exact h.2.2.1 (.tileLayer [cellGid3])
      { stSeeded with missing_gids := [3], warnings := [3] } rfl
  · exact h.2.2.2.1 [Layer.objectGroup [objLight]]
      { stSeeded with entities := [placeObject cfgSquare objLight] } rfl

/-- C9: no placement mutates the prefab cache: in this embedding templates
are reachable only through the cache component of the state, the whole pass
returns the cache unchanged, and therefore every later lookup of a gid
yields the identical cached template with no re-parsing. -/
theorem C9_cache_immutable (cfg : Config) :
    (∀ st layers st2, processLayers cfg st layers = .ok st2 → st2.tiles = st.tiles) ∧
    (∀ st layers st2 gid, processLayers cfg st layers = .ok st2 →
      lookupTile st2.tiles gid = lookupTile st.tiles gid) ∧
    (∀ tiles layers st2, runPipeline cfg tiles layers = .ok st2 → st2.tiles = tiles) := by
  refine ⟨fun st layers st2 h => processLayers_tiles cfg layers st st2 h,
    fun st layers st2 gid h => by rw [processLayers_tiles cfg layers st st2 h], ?_⟩
  intro tiles layers st2 h
  rw [runPipeline] at h
  rcases hi : initState tiles with err | st0
  · rw [hi] at h; exact Except.noConfusion h
  · rw [hi] at h
    have h0 : st0.tiles = tiles := by
      rw [initState] at hi
      rcases hs : seedWorldspawn tiles with e | ws
      · rw [hs] at hi; exact Except.noConfusion hi
      · rw [hs] at hi
        injection hi with hi2
        subst hi2
        rfl
    rw [processLayers_tiles cfg layers st0 st2 h, h0]

/-- C9 witness: the preservation statement applied to a one-layer run from
the seeded state. -/
theorem C9_cache_immutable_witness :
    processLayers cfgSquare stSeeded [Layer.objectGroup [objLight]] =
      .ok { stSeeded with entities := [placeObject cfgSquare objLight] } ∧
    ({ stSeeded with entities := [placeObject cfgSquare objLight] } : MapState).tiles =
      stSeeded.tiles := by
  have hrun : processLayers cfgSquare stSeeded [Layer.objectGroup [objLight]] =
      .ok { stSeeded with entities := [placeObject cfgSquare objLight] } := rfl
  exact ⟨hrun, (C9_cache_immutable cfgSquare).1 stSeeded _ _ hrun⟩

theorem processCell_error_is_keyError (cfg : Config) (st : MapState) (ic : ℕ × Cell)
    (err : CrashErr) (h : processCell cfg st ic = .error err) :
    ∃ g, err = .keyError g := by
  simp only [processCell] at h
  split at h
  · exact Except.noConfusion h
  · split at h
    · exact Except.noConfusion h
    · split at h
      · injection h with h2
        exact ⟨_, h2.symm⟩
      · exact Except.noConfusion h

theorem processCells_ne_gid2 (cfg : Config) :
    ∀ (cells : List (ℕ × Cell)) (st : MapState),
      processCells cfg st cells ≠ .error .gid2KeyError := by
  intro cells
  induction cells with
  | nil => intro st h; exact Except.noConfusion h
  | cons ic rest ih =>
      intro st h
      simp only [processCells] at h
      rcases hc : processCell cfg st ic with err | st1
      · rw [hc] at h
        injection h with h2
        obtain ⟨g, hg⟩ := processCell_error_is_keyError cfg st ic err hc
        rw [hg] at h2
        exact CrashErr.noConfusion h2
      · rw [hc] at h
        exact ih st1 h

theorem processLayers_ne_gid2 (cfg : Config) :
    ∀ (layers : List Layer) (st : MapState),
      processLayers cfg st layers ≠ .error .gid2KeyError := by
  intro layers
  induction layers with
  | nil => intro st h; exact Except.noConfusion h
  | cons l rest ih =>
      intro st h
      simp only [processLayers] at h
      rcases hl : processLayer cfg st l with err | st1
      · rw [hl] at h
        injection h with h2
        subst h2
        cases l with
        | tileLayer cells => exact processCells_ne_gid2 cfg cells.enum st hl
        | objectGroup objs => exact Except.noConfusion hl
      · rw [hl] at h
        exact ih st1 h

theorem seedWorldspawn_ne_gid2 (tiles : TileCache) (p : Prefab)
    (hp : lookupTile tiles 2 = some p) :
    seedWorldspawn tiles ≠ .error .gid2KeyError := by
  rcases p with _ | ⟨e0, rest⟩
  · simp [seedWorldspawn, hp]
  · rcases hw : e0.getProp "wad" with _ | w <;> simp [seedWorldspawn, hp, hw]

/-- C10: the accumulator seeding reads the texture-archive reference from
the first entity of the prefab cached under the hardcoded gid 2, before any
layer is processed; when gid 2 is absent from the cache every run fails
with the corresponding lookup error regardless of the layers, and when a
prefab is cached under gid 2 neither the seeding nor any later stage ever
produces that lookup error — it can only arise from the seeding lookup. -/
theorem C10_gid2_seeding (cfg : Config) (tiles : TileCache) (layers : List Layer) :
    (lookupTile tiles 2 = none →
      runPipeline cfg tiles layers = .error .gid2KeyError) ∧
    (∀ e0 rest w, lookupTile tiles 2 = some (e0 :: rest) →
      e0.getProp "wad" = some w →
      seedWorldspawn tiles =
        .ok { classname := "worldspawn", props := [("wad", w)], brushes := [] }) ∧
    (∀ p, lookupTile tiles 2 = some p →
      seedWorldspawn tiles ≠ .error .gid2KeyError) ∧
    (runPipeline cfg tiles layers = .error .gid2KeyError → lookupTile tiles 2 = none) := by
  refine ⟨?_, ?_, ?_, ?_⟩
  · intro h
    simp [runPipeline, initState, seedWorldspawn, h]
  · intro e0 rest w h1 h2
    simp [seedWorldspawn, h1, h2]
  · intro p hp
    exact seedWorldspawn_ne_gid2 tiles p hp
  · intro h
    rcases hp : lookupTile tiles 2 with _ | p
    · rfl
    · exfalso
      rw [runPipeline] at h
      rcases hi : initState tiles with err | st0
      · rw [hi] at h
        injection h with h2
        subst h2
        rw [initState] at hi
        rcases hs : seedWorldspawn tiles with e | ws
        · rw [hs] at hi
          injection hi with hi2
          subst hi2
          exact seedWorldspawn_ne_gid2 tiles p hp hs
        · rw [hs] at hi
          exact Except.noConfusion hi
      · rw [hi] at h
        exact processLayers_ne_gid2 cfg layers st0 h

/-- C10 witness: the seeding statement applied to an empty cache and to the
cache that holds the gid 2 prefab. -/
theorem C10_gid2_seeding_witness :
    runPipeline cfgSquare [] [] = .error CrashErr.gid2KeyError ∧
    seedWorldspawn tilesC1 ≠ .error CrashErr.gid2KeyError := by
  have h1 := (C10_gid2_seeding cfgSquare [] []).1 rfl
  have h2 := (C10_gid2_seeding cfgSquare tilesC1 []).2.2.1 prefabGid2 rfl
  exact ⟨h1, h2⟩

end

end Tmx2Map
